import Mathlib

/-!
# astr: image-compression proxy

A shallow embedding of the three handler variants of the repository
(`proxy.js`, `proxy1.js`, `request.js`) and machine-checked statements about the
compression policy, the redirect fallback, header projection and request
validation.

Conventions of the embedding

* A JavaScript value that may be `undefined` is an `Option`.
* A thrown JavaScript exception is `Except.error`.
* An HTTP response object is explicit state (`Res`), threaded through the code.
* The image codec, the outbound HTTP client and the URL parser are external
  collaborators; their answers are explicit arguments of the handlers.
-/

set_option autoImplicit false

/-! ## JavaScript runtime fragments -/

namespace JS

/-- Exceptions that the embedded code can raise. -/
inductive Error where
  | typeError
  | uriError
  | invalidUrl
  | unhandledNetworkError
deriving DecidableEq, Repr

deriving instance DecidableEq for Except

/-- The method `s.startsWith(p)` on strings. -/
def startsWith (s p : String) : Bool :=
  p.data.isPrefixOf s.data

/-- The method `s.endsWith(p)` on strings. -/
def endsWith (s p : String) : Bool :=
  p.data.reverse.isPrefixOf s.data.reverse

/-- Truthiness of an optional string: `undefined` and `""` are falsy. -/
def truthy : Option String → Bool
  | none => false
  | some s => s != ""

/-- The white space that `parseInt` skips (ECMAScript `StrWhiteSpaceChar`). -/
def isStrWhiteSpace (c : Char) : Bool :=
  let n := c.toNat
  n == 0x09 || n == 0x0A || n == 0x0B || n == 0x0C || n == 0x0D || n == 0x20 ||
  n == 0xA0 || n == 0x1680 || (0x2000 ≤ n && n ≤ 0x200A) || n == 0x2028 ||
  n == 0x2029 || n == 0x202F || n == 0x205F || n == 0x3000 || n == 0xFEFF

/-- Value of a decimal digit character. -/
def digitVal (c : Char) : Nat := c.toNat - 48

/-- Decimal value of a list of digit characters, with an accumulator. -/
def digitsValue : Nat → List Char → Nat
  | acc, [] => acc
  | acc, c :: cs => digitsValue (10 * acc + digitVal c) cs

/-- The longest prefix of decimal digits. -/
def takeDigits : List Char → List Char
  | [] => []
  | c :: cs => if c.isDigit then c :: takeDigits cs else []

/-- Drop the leading white space. -/
def dropWhiteSpace : List Char → List Char
  | [] => []
  | c :: cs => if isStrWhiteSpace c then dropWhiteSpace cs else c :: cs

/-- The builtin `parseInt(s, 10)` on the characters of a string; `none` is `NaN`.
The result is exact (no rounding to a double). -/
def parseIntChars (cs : List Char) : Option Int :=
  let body := dropWhiteSpace cs
  let (neg, rest) :=
    match body with
    | '-' :: r => (true, r)
    | '+' :: r => (false, r)
    | r => (false, r)
  match takeDigits rest with
  | [] => none
  | ds => some (if neg then -(digitsValue 0 ds : Int) else (digitsValue 0 ds : Int))

/-- The builtin `parseInt(v, 10)` where `v` may be `undefined` (converted to the string
`"undefined"`, which has no digits). -/
def parseInt : Option String → Option Int
  | none => none
  | some s => parseIntChars s.data

/-- The expression `x || d` for a number or `NaN`: `NaN` and `0` are falsy. -/
def numOr (x : Option Int) (d : Int) : Int :=
  match x with
  | none => d
  | some n => if n = 0 then d else n

/-- The coercion `Number(s)` for the strings the HTTP parser delivers as `content-length`:
the empty string is `0`, a run of decimal digits is its value. Every other
string is treated as `NaN` (`none`). -/
def toNumber (s : String) : Option Int :=
  if s.data.all Char.isDigit then some (digitsValue 0 s.data : Int) else none

/-- A value that is a string or a number. -/
inductive Value where
  | str (s : String)
  | num (n : Int)
deriving DecidableEq, Repr

namespace Value

/-- The test `v === k` for a number `k`: strict equality never holds between a string and
a number. -/
def strictEqNum : Value → Int → Bool
  | num n, k => n == k
  | str _, _ => false

/-- Numeric coercion; `none` is `NaN`. -/
def toNumber : Value → Option Int
  | num n => some n
  | str s => JS.toNumber s

/-- The test `v < k` for a number `k`; comparisons with `NaN` are false. -/
def lt (v : Value) (k : Int) : Bool :=
  match v.toNumber with
  | none => false
  | some n => decide (n < k)

/-- The difference `v - k` for a number `k`; `none` is `NaN`. -/
def sub (v : Value) (k : Int) : Option Int :=
  match v.toNumber with
  | none => none
  | some n => some (n - k)

end Value

/-- Upper-case hexadecimal digit. -/
def hexDigit (n : Nat) : Char :=
  if n < 10 then Char.ofNat (48 + n) else Char.ofNat (55 + n)

/-- Percent-encoding of one byte. -/
def pctByte (b : UInt8) : List Char :=
  ['%', hexDigit (b.toNat / 16), hexDigit (b.toNat % 16)]

/-- Characters that `encodeURI` leaves alone: letters, digits, the unreserved
marks, the reserved characters and `#`. -/
def uriUnescaped (c : Char) : Bool :=
  c.isAlphanum || ";/?:@&=+$,-_.!~*()#".data.contains c || c.toNat == 39

/-- The builtin `encodeURI(s)`: every other character is replaced by the percent-encoding of
its UTF-8 bytes. -/
def encodeURI (s : String) : String :=
  String.mk (s.data.flatMap fun c =>
    if uriUnescaped c then [c] else (String.utf8EncodeChar c).flatMap pctByte)

/-- ASCII lower-casing of a header name. -/
def lower (s : String) : String :=
  String.mk (s.data.map Char.toLower)

end JS

/-! ## HTTP response state -/

/-- A header value as handed to `setHeader`: a string, a number or `NaN`. -/
inductive HVal where
  | str (s : String)
  | num (n : Int)
  | nan
deriving DecidableEq, Repr

/-- A body chunk: text written by the handler, or opaque bytes of a stream. -/
inductive Chunk where
  | text (s : String)
  | bytes (b : List Nat)
deriving DecidableEq, Repr

/-- Header maps are association lists keyed by lower-cased header name. -/
abbrev Headers := List (String × HVal)

namespace Headers

/-- Look a header up. -/
def get : Headers → String → Option HVal
  | [], _ => none
  | (k, v) :: hs, name => if k = name then some v else get hs name

/-- Assign a header, in place when it is already there. -/
def set : Headers → String → HVal → Headers
  | [], name, v => [(name, v)]
  | (k, w) :: hs, name, v =>
    if k = name then (k, v) :: hs else (k, w) :: set hs name v

/-- Delete a header. -/
def remove : Headers → String → Headers
  | [], _ => []
  | (k, w) :: hs, name => if k = name then remove hs name else (k, w) :: remove hs name

end Headers

/-- The server response object, as far as the handlers touch it. -/
structure Res where
  headersSent : Bool
  statusCode : Nat
  headers : Headers
  body : List Chunk
  ended : Bool
deriving DecidableEq, Repr

namespace Res

/-- A response nothing has been done to yet. -/
def fresh : Res :=
  { headersSent := false, statusCode := 200, headers := [], body := [], ended := false }

/-- The call `res.setHeader(name, value)`; header names are case-insensitive. Used on
responses whose headers are not yet sent. -/
def setHeader (res : Res) (name : String) (v : HVal) : Res :=
  { res with headers := res.headers.set (JS.lower name) v }

/-- The call `res.removeHeader(name)`. -/
def removeHeader (res : Res) (name : String) : Res :=
  { res with headers := res.headers.remove (JS.lower name) }

/-- The call `res.getHeader(name)`. -/
def getHeader (res : Res) (name : String) : Option HVal :=
  res.headers.get (JS.lower name)

/-- The call `res.status(code)`, and the assignment `res.statusCode = code`. -/
def status (res : Res) (code : Nat) : Res :=
  { res with statusCode := code }

/-- The call `res.write(chunk)`: flushes the headers and appends to the body. -/
def write (res : Res) (c : Chunk) : Res :=
  { res with headersSent := true, body := res.body ++ [c] }

/-- The call `res.end()`: flushes the headers and finishes the response. -/
def finish (res : Res) : Res :=
  { res with headersSent := true, ended := true }

/-- The call `res.end(text)` and Express `res.send(text)`: write the text, then finish.
(The content headers Express derives from the text are not modelled.) -/
def endWith (res : Res) (s : String) : Res :=
  (res.write (Chunk.text s)).finish

/-- The call `stream.pipe(res)` run to completion: every chunk is written, then the
response is finished. -/
def pipe (res : Res) (data : List Chunk) : Res :=
  { res with headersSent := true, body := res.body ++ data, ended := true }

end Res

/-! ## Requests and origin responses -/

/-- The query parameters the handlers read (`req.query`). -/
structure Query where
  url : Option String := none
  jpeg : Option String := none
  bw : Option String := none
  l : Option String := none
  quality : Option String := none
deriving DecidableEq, Repr

/-- The request headers the handlers read (`req.headers`). -/
structure ReqHeaders where
  range : Option String := none
  via : Option String := none
  xForwardedFor : Option String := none
deriving DecidableEq, Repr

/-- The header object of an origin response: lower-cased names, string values. -/
abbrev OriginHeaders := List (String × String)

namespace OriginHeaders

/-- Property access `headers[name]`. -/
def get : OriginHeaders → String → Option String
  | [], _ => none
  | (k, v) :: hs, name => if k = name then some v else get hs name

end OriginHeaders

/-- What a handler run leaves behind: the response, the outbound fetches it
issued, whether it invoked the compressor and, if so, the quality it handed
over for the encoder. -/
structure Run where
  res : Res
  fetched : List String := []
  compressInvoked : Bool := false
  compressQuality : Option Int := none
deriving DecidableEq, Repr

/-- The header names projected on the bypass path. -/
def bypassHeaderNames : List String :=
  ["accept-ranges", "content-type", "content-length", "content-range"]

/-- The body of the loop over the bypass header names:
`if (origin.headers[header]) res.setHeader(header, origin.headers[header])`. -/
def projectStep (origin : OriginHeaders) (r : Res) (header : String) : Res :=
  match origin.get header with
  | some v => if v != "" then r.setHeader header (HVal.str v) else r
  | none => r

/-- The loop `[...].forEach(header => ...)` of both bypass branches. -/
def projectHeaders (origin : OriginHeaders) (res : Res) : Res :=
  bypassHeaderNames.foldl (projectStep origin) res

/-- The value a bypass header name ends up with: the origin's when that is
present and non-empty, the previous one otherwise. -/
def projected (origin : OriginHeaders) (header : String) (old : Option HVal) : Option HVal :=
  match origin.get header with
  | some v => if v != "" then some (HVal.str v) else old
  | none => old

/-! ## The fallback response -/

/-- The header names `redirect` assigns or removes. -/
def redirectHeaderNames : List String :=
  ["content-length", "cache-control", "expires", "date", "etag", "location"]

/-- The fallback response `after`, reached from `before` for the requested
`url`: status 302, `content-length: 0`, `location` the percent-encoded url, no
caching headers, every other header as before, no body, ended. -/
def IsFallback (before after : Res) (url : String) : Prop :=
  after.statusCode = 302 ∧
    after.getHeader "content-length" = some (HVal.num 0) ∧
    after.getHeader "location" = some (HVal.str (JS.encodeURI url)) ∧
    after.getHeader "cache-control" = none ∧
    after.getHeader "expires" = none ∧
    after.getHeader "date" = none ∧
    after.getHeader "etag" = none ∧
    (∀ name, name ∉ redirectHeaderNames → after.headers.get name = before.headers.get name) ∧
    after.body = [] ∧
    after.ended = true

/-- The header names `hhproxy` assigns itself after copying the origin's. -/
def hhproxyOwnHeaderNames : List String :=
  ["content-encoding", "access-control-allow-origin", "cross-origin-resource-policy",
    "cross-origin-embedder-policy", "x-proxy-bypass"]

/-! ## The policy of the specification -/

namespace Spec

/-- The six rules of the compression policy, in the order the specification
lists them, with its example thresholds 50,000 and 10,000. -/
def shouldCompress (contentType : String) (contentSizeBytes : Int)
    (rangeRequested targetIsWebp : Bool) : Bool :=
  if ¬ JS.startsWith contentType "image" then false
  else if contentSizeBytes = 0 then false
  else if rangeRequested then false
  else if ¬ targetIsWebp ∧
      (JS.endsWith contentType "png" ∨ JS.endsWith contentType "gif") ∧
      contentSizeBytes < 50000 then false
  else if targetIsWebp ∧ contentSizeBytes < 10000 then false
  else true

end Spec

/-! ## proxy.js -/

namespace ProxyJs

def DEFAULT_QUALITY : Int := 80
def MIN_TRANSPARENT_COMPRESS_LENGTH : Int := 50000
def MIN_COMPRESS_LENGTH : Int := 10000

/-- The object `req.params` that `fetchImageAndHandle` builds. `originType` is
`headers["content-type"]`, which may be `undefined`; `originSize` is a number.
(`grayscale` only reaches the codec and is left out.) -/
structure Params where
  url : String
  webp : Bool
  quality : Int
  originType : Option String := none
  originSize : Int := 0
deriving DecidableEq, Repr

/-- The request object. -/
structure Req where
  query : Query := {}
  headers : ReqHeaders := {}
  params : Params
deriving DecidableEq, Repr

/-- The origin handed to `handleRequest`. -/
structure Origin where
  headers : OriginHeaders
  data : List Chunk
deriving DecidableEq, Repr

/-- What the codec does with the piped input: `metadata()` rejects, or `toFile`
calls back with `(err, info)`; `info.size` is the encoded size. When the headers
go out, the temporary file is streamed: `none` is a read error before any
data. -/
inductive SharpOutcome where
  | metadataRejected
  | toFileCallback (err : Bool) (info : Option Nat) (file : Option (List Chunk))
deriving DecidableEq, Repr

/-- Source: `redirect`, proxy.js lines 8-20. -/
def redirect (req : Req) (res : Res) : Res :=
  if res.headersSent then res
  else
    let res := res.setHeader "content-length" (HVal.num 0)
    let res := res.removeHeader "cache-control"
    let res := res.removeHeader "expires"
    let res := res.removeHeader "date"
    let res := res.removeHeader "etag"
    let res := res.setHeader "location" (HVal.str (JS.encodeURI req.params.url))
    (res.status 302).finish

/-- Source: `shouldCompress`, proxy.js lines 23-40. Calling `startsWith` on an
`undefined` content type throws. -/
def shouldCompress (req : Req) : Except JS.Error Bool :=
  let originSize := req.params.originSize
  let webp := req.params.webp
  match req.params.originType with
  | none => throw JS.Error.typeError
  | some originType =>
    if !JS.startsWith originType "image" then pure false
    else if originSize == 0 || JS.truthy req.headers.range then pure false
    else if !webp &&
        (JS.endsWith originType "png" || JS.endsWith originType "gif") &&
        decide (originSize < MIN_TRANSPARENT_COMPRESS_LENGTH) then pure false
    else if webp && decide (originSize < MIN_COMPRESS_LENGTH) then pure false
    else pure true

/-- Source: `compress`, proxy.js lines 46-108; the codec is the oracle
`sharp`. -/
def compress (sharp : SharpOutcome) (req : Req) (res : Res)
    (_inputStream : List Chunk) : Res :=
  let format := if req.params.webp then "webp" else "jpeg"
  match sharp with
  | SharpOutcome.metadataRejected => redirect req res
  | SharpOutcome.toFileCallback err info file =>
    match info with
    | none => redirect req res
    | some size =>
      if err || res.headersSent then redirect req res
      else
        let res := res.setHeader "content-type" (HVal.str ("image/" ++ format))
        let res := res.setHeader "content-length" (HVal.num size)
        let res := res.setHeader "x-original-size" (HVal.num req.params.originSize)
        let res := res.setHeader "x-bytes-saved" (HVal.num (req.params.originSize - size))
        match file with
        | none => redirect req res
        | some chunks => res.pipe chunks

/-- Source: `handleRequest`, proxy.js lines 192-206. -/
def handleRequest (sharp : SharpOutcome) (req : Req) (res : Res) (origin : Origin) :
    Except JS.Error Run := do
  if (← shouldCompress req) then
    pure { res := compress sharp req res origin.data
           compressInvoked := true
           compressQuality := some req.params.quality }
  else
    let res := res.setHeader "X-Proxy-Bypass" (HVal.num 1)
    let res := projectHeaders origin.headers res
    pure { res := res.pipe origin.data }

/-- The answer of undici `request(url)`: it throws, or resolves with a status
code, headers and a body. -/
inductive FetchResult where
  | threw
  | response (statusCode : Nat) (headers : OriginHeaders) (body : List Chunk)
deriving DecidableEq, Repr

/-- The collaborators of `fetchImageAndHandle`: `decodeURIComponent` (`none`
when it throws a `URIError`), the HTTP client and the codec. -/
structure Env where
  decodeURIComponent : String → Option String
  request : String → FetchResult
  sharp : SharpOutcome

/-- Source: the expression `parseInt(req.query.l, 10) || DEFAULT_QUALITY` of
`fetchImageAndHandle`, proxy.js line 220. -/
def quality (query : Query) : Int :=
  JS.numOr (JS.parseInt query.l) DEFAULT_QUALITY

/-- Source: `fetchImageAndHandle`, proxy.js lines 210-245. -/
def fetchImageAndHandle (env : Env) (req : Req) (res : Res) : Except JS.Error Run :=
  if !JS.truthy req.query.url then
    pure { res := res.endWith "bandwidth-hero-proxy" }
  else
    match env.decodeURIComponent (req.query.url.getD "") with
    | none => throw JS.Error.uriError
    | some decoded =>
      let req := { req with params :=
        { url := decoded
          webp := !JS.truthy req.query.jpeg
          quality := quality req.query } }
      match env.request req.params.url with
      | FetchResult.threw =>
        pure { res := (res.status 500).endWith "Failed to fetch the image."
               fetched := [req.params.url] }
      | FetchResult.response statusCode headers body =>
        if statusCode ≥ 400 then
          pure { res := (res.status statusCode).endWith "Failed to fetch the image."
                 fetched := [req.params.url] }
        else
          let req := { req with params :=
            { req.params with
              originType := headers.get "content-type"
              originSize := JS.numOr (JS.parseInt (headers.get "content-length")) 0 } }
          match handleRequest env.sharp req res { headers := headers, data := body } with
          | Except.ok run => pure { run with fetched := [req.params.url] }
          | Except.error _ =>
            pure { res := (res.status 500).endWith "Failed to fetch the image."
                   fetched := [req.params.url] }

end ProxyJs


/-! ## proxy1.js -/

namespace Proxy1Js

def DEFAULT_QUALITY : Int := 40
def MIN_COMPRESS_LENGTH : Int := 1024
def MIN_TRANSPARENT_COMPRESS_LENGTH : Int := MIN_COMPRESS_LENGTH * 100

/-- The object `req.params` that `hhproxy` builds. Here `originType` is always
a string and `originSize` is whatever `headers["content-length"] || "0"` gives,
a string. -/
structure Params where
  url : String
  webp : Bool
  quality : Int
  originType : String := ""
  originSize : JS.Value := JS.Value.str "0"
deriving DecidableEq, Repr

/-- The request object; `ip` is `req.ip`. -/
structure Req where
  query : Query := {}
  headers : ReqHeaders := {}
  ip : Option String := none
  params : Params
deriving DecidableEq, Repr

/-- What the codec pipeline of `compress` does: an error event, an `info`
event with the encoded size followed by the output chunks and the end of the
stream, or nothing at all. -/
inductive SharpOutcome where
  | error
  | encoded (size : Nat) (data : List Chunk)
  | silent
deriving DecidableEq, Repr

/-- Source: `shouldCompress`, proxy1.js lines 15-31. -/
def shouldCompress (req : Req) : Bool :=
  let originType := req.params.originType
  let originSize := req.params.originSize
  let webp := req.params.webp
  if !JS.startsWith originType "image" then false
  else if originSize.strictEqNum 0 then false
  else if JS.truthy req.headers.range then false
  else if webp && originSize.lt MIN_COMPRESS_LENGTH then false
  else if !webp &&
      (JS.endsWith originType "png" || JS.endsWith originType "gif") &&
      originSize.lt MIN_TRANSPARENT_COMPRESS_LENGTH then false
  else true

/-- Source: `copyHeaders`, proxy1.js lines 34-42. -/
def copyHeaders (source : OriginHeaders) (target : Res) : Res :=
  source.foldl (fun t kv => t.setHeader kv.1 (HVal.str kv.2)) target

/-- Source: `redirect`, proxy1.js lines 45-56. -/
def redirect (req : Req) (res : Res) : Res :=
  if res.headersSent then res
  else
    let res := res.setHeader "content-length" (HVal.num 0)
    let res := res.removeHeader "cache-control"
    let res := res.removeHeader "expires"
    let res := res.removeHeader "date"
    let res := res.removeHeader "etag"
    let res := res.setHeader "location" (HVal.str (JS.encodeURI req.params.url))
    let res := res.status 302
    res.finish

/-- A string-or-number handed to `setHeader`. -/
def headerOfValue : JS.Value → HVal
  | JS.Value.str s => HVal.str s
  | JS.Value.num n => HVal.num n

/-- A number-or-`NaN` handed to `setHeader`. -/
def headerOfNumber : Option Int → HVal
  | some n => HVal.num n
  | none => HVal.nan

/-- Source: `setResponseHeaders` inside `compress`, proxy1.js lines 80-86. -/
def setResponseHeaders (format : String) (res : Res) (infoSize : Nat)
    (originalSize : JS.Value) : Res :=
  let res := res.setHeader "Content-Type" (HVal.str ("image/" ++ format))
  let res := res.setHeader "Content-Length" (HVal.num infoSize)
  let res := res.setHeader "X-Original-Size" (headerOfValue originalSize)
  let res := res.setHeader "X-Bytes-Saved" (headerOfNumber (originalSize.sub infoSize))
  res.status 200

/-- Source: `compress`, proxy1.js lines 59-144; the codec is the oracle
`sharp`. -/
def compress (sharp : SharpOutcome) (req : Req) (res : Res) (_input : List Chunk) : Res :=
  let format := if req.params.webp then "webp" else "jpeg"
  match sharp with
  | SharpOutcome.error => redirect req res
  | SharpOutcome.silent => res
  | SharpOutcome.encoded size data =>
    let res := setResponseHeaders format res size req.params.originSize
    let res := data.foldl Res.write res
    res.finish

/-- Does `s` start with `pat`, ignoring ASCII case? The rest of `s` if so. -/
def matchLit : List Char → List Char → Option (List Char)
  | [], s => some s
  | _ :: _, [] => none
  | p :: ps, c :: cs => if p.toLower = c.toLower then matchLit ps cs else none

/-- One decimal digit (`\d`). -/
def matchDigit : List Char → Option (List Char)
  | [] => none
  | c :: cs => if c.isDigit then some cs else none

/-- A match of `/http:\/\/1\.1\.\d\.\d\/bmi\/(https?:\/\/)?/i` at the start of
the input; the rest of the input after the match. -/
def matchBmi (s : List Char) : Option (List Char) := do
  let r ← matchLit "http://1.1.".data s
  let r ← matchDigit r
  let r ← matchLit ".".data r
  let r ← matchDigit r
  let r ← matchLit "/bmi/".data r
  match matchLit "https://".data r with
  | some r1 => pure r1
  | none =>
    match matchLit "http://".data r with
    | some r2 => pure r2
    | none => pure r

/-- Replace the leftmost match by `http://`. -/
def replaceBmiChars : List Char → List Char
  | [] => []
  | c :: cs =>
    match matchBmi (c :: cs) with
    | some rest => "http://".data ++ rest
    | none => c :: replaceBmiChars cs

/-- Source: `url.replace(/http:\/\/1\.1\.\d\.\d\/bmi\/(https?:\/\/)?/i, 'http://')`,
proxy1.js line 155. -/
def replaceBmi (url : String) : String :=
  String.mk (replaceBmiChars url.data)

/-- The answer of `requestModule.request(parsedUrl, options, callback)`: it
throws (with code `ERR_INVALID_URL` or another error), no response ever
arrives, or the callback runs with the origin response. -/
inductive FetchResult where
  | threwInvalidUrl
  | threw
  | noResponse
  | response (statusCode : Nat) (headers : OriginHeaders) (body : List Chunk)
deriving DecidableEq, Repr

/-- The collaborators of `hhproxy`: whether `new URL(s)` accepts the string,
the HTTP client and the codec. -/
structure Env where
  validURL : String → Bool
  request : String → FetchResult
  sharp : SharpOutcome

/-- Source: the assignments `req.params.originType = originRes.headers["content-type"] || ""`
and `req.params.originSize = originRes.headers["content-length"] || "0"` of the
origin callback, proxy1.js lines 203-204. -/
def withOrigin (req : Req) (headers : OriginHeaders) : Req :=
  { req with params :=
    { req.params with
      originType :=
        if JS.truthy (headers.get "content-type") then (headers.get "content-type").getD ""
        else ""
      originSize :=
        JS.Value.str
          (if JS.truthy (headers.get "content-length") then
            (headers.get "content-length").getD ""
          else "0") } }

/-- Source: the origin callback of `hhproxy`, proxy1.js lines 188-225. -/
def originCallback (sharp : SharpOutcome) (req : Req) (res : Res)
    (statusCode : Nat) (headers : OriginHeaders) (body : List Chunk) : Run :=
  if statusCode ≥ 400 || (statusCode ≥ 300 && JS.truthy (headers.get "location")) then
    { res := redirect req res }
  else
    let res := copyHeaders headers res
    let res := res.setHeader "content-encoding" (HVal.str "identity")
    let res := res.setHeader "Access-Control-Allow-Origin" (HVal.str "*")
    let res := res.setHeader "Cross-Origin-Resource-Policy" (HVal.str "cross-origin")
    let res := res.setHeader "Cross-Origin-Embedder-Policy" (HVal.str "unsafe-none")
    let req := withOrigin req headers
    if shouldCompress req then
      { res := compress sharp req res body
        compressInvoked := true
        compressQuality := some req.params.quality }
    else
      let res := res.setHeader "x-proxy-bypass" (HVal.num 1)
      let res := projectHeaders headers res
      let res := body.foldl Res.write res
      { res := res.finish }

/-- Source: the assignments to `req.params` of `hhproxy`, proxy1.js lines
154-162, for a request whose `url` parameter is `url`. -/
def withParams (req : Req) (url : String) : Req :=
  { req with params :=
    { url := replaceBmi url
      webp := !JS.truthy req.query.jpeg
      quality := JS.numOr (JS.parseInt req.query.l) DEFAULT_QUALITY } }

/-- Source: the loop-back test of `hhproxy`, proxy1.js lines 165-168. -/
def isLoopback (req : Req) : Bool :=
  req.headers.via == some "1.1 myapp-hero" &&
    ["127.0.0.1", "::1"].contains
      ((if JS.truthy req.headers.xForwardedFor then req.headers.xForwardedFor
        else req.ip).getD "undefined")

/-- Source: `hhproxy`, proxy1.js lines 149-236. -/
def hhproxy (env : Env) (req : Req) (res : Res) : Except JS.Error Run :=
  if !JS.truthy req.query.url then pure { res := res.endWith "ban" }
  else
    let req := withParams req (req.query.url.getD "")
    if isLoopback req then pure { res := redirect req res }
    else if !env.validURL req.params.url then throw JS.Error.invalidUrl
    else
      match env.request req.params.url with
      | FetchResult.threwInvalidUrl =>
        pure { res := (res.status 400).endWith "Invalid URL", fetched := [req.params.url] }
      | FetchResult.threw =>
        pure { res := redirect req res, fetched := [req.params.url] }
      | FetchResult.noResponse => throw JS.Error.unhandledNetworkError
      | FetchResult.response statusCode headers body =>
        pure { originCallback env.sharp req res statusCode headers body with
               fetched := [req.params.url] }

end Proxy1Js

/-! ## request.js -/

namespace RequestJs

def DEFAULT_QUALITY : Int := 80
def MAX_HEIGHT : Nat := 16383

/-- Source: `shouldCompress`, request.js lines 9-16. Calling `startsWith` on an
`undefined` content type throws. -/
def shouldCompress (originType : Option String) (originSize : Int) (isWebp : Bool) :
    Except JS.Error Bool :=
  let MIN_COMPRESS_LENGTH : Int := if isWebp then 10000 else 50000
  match originType with
  | none => throw JS.Error.typeError
  | some originType =>
    pure (JS.startsWith originType "image" &&
      decide (originSize ≥ MIN_COMPRESS_LENGTH) &&
      !JS.endsWith originType "gif")

/-- What the codec does in `compressStream`: `metadata()` rejects, the encoder
emits an error before any output, or it emits `info`, the output chunks and the
end of the stream. -/
inductive SharpOutcome where
  | metadataRejected
  | encodeError
  | encoded (data : List Chunk)
deriving DecidableEq, Repr

/-- Source: `compressStream`, request.js lines 22-62. -/
def compressStream (sharp : SharpOutcome) (_inputStream : List Chunk) (format : String)
    (_quality : Int) (res : Res) (originSize : Int) : Res :=
  match sharp with
  | SharpOutcome.metadataRejected =>
    (res.status 500).endWith "Error processing image metadata."
  | SharpOutcome.encodeError =>
    let res := res.setHeader "Content-Type" (HVal.str ("image/" ++ format))
    (res.status 500).endWith "Error processing image."
  | SharpOutcome.encoded data =>
    let res := res.setHeader "Content-Type" (HVal.str ("image/" ++ format))
    let res := res.setHeader "X-Original-Size" (HVal.num originSize)
    let res := data.foldl Res.write res
    res.finish

/-- The answer of `https.get(imageUrl, options, callback)`: it throws, the
request emits `error`, or the callback runs with the origin response. -/
inductive FetchResult where
  | threw
  | error
  | response (statusCode : Nat) (headers : OriginHeaders) (body : List Chunk)
deriving DecidableEq, Repr

/-- The collaborators of `fetchImageAndHandle`: the HTTP client and the codec. -/
structure Env where
  get : String → FetchResult
  sharp : SharpOutcome

/-- The request object. -/
structure Req where
  query : Query := {}
  headers : ReqHeaders := {}
deriving DecidableEq, Repr

/-- Source: the expression `parseInt(req.query.quality, 10) || DEFAULT_QUALITY`
of `fetchImageAndHandle`, request.js line 69. -/
def quality (query : Query) : Int :=
  JS.numOr (JS.parseInt query.quality) DEFAULT_QUALITY

/-- Source: `fetchImageAndHandle`, request.js lines 65-106. -/
def fetchImageAndHandle (env : Env) (req : Req) (res : Res) : Except JS.Error Run :=
  let imageUrl := req.query.url
  let isWebp := !JS.truthy req.query.jpeg
  let quality := quality req.query
  let format := if isWebp then "webp" else "jpeg"
  if !JS.truthy imageUrl then
    pure { res := (res.status 400).endWith "Image URL is required." }
  else
    let imageUrl := imageUrl.getD ""
    match env.get imageUrl with
    | FetchResult.threw => throw JS.Error.invalidUrl
    | FetchResult.error =>
      pure { res := (res.status 500).endWith "Failed to fetch the image."
             fetched := [imageUrl] }
    | FetchResult.response statusCode headers body =>
      let originType := headers.get "content-type"
      let originSize := JS.numOr (JS.parseInt (headers.get "content-length")) 0
      if statusCode ≥ 400 then
        pure { res := (res.status statusCode).endWith "Failed to fetch the image."
               fetched := [imageUrl] }
      else do
        if (← shouldCompress originType originSize isWebp) then
          pure { res := compressStream env.sharp body format quality res originSize
                 fetched := [imageUrl]
                 compressInvoked := true
                 compressQuality := some quality }
        else
          let res := res.setHeader "Content-Type" (HVal.str (originType.getD ""))
          let res := res.setHeader "Content-Length" (HVal.num originSize)
          pure { res := res.pipe body, fetched := [imageUrl] }

end RequestJs

/-! ## Header maps and response state: basic facts -/

namespace Headers

theorem get_set (hs : Headers) (k : String) (v : HVal) (name : String) :
    (hs.set k v).get name = if name = k then some v else hs.get name := by
  induction hs with
  | nil =>
    by_cases h : name = k
    · simp [set, get, h]
    · have h2 : ¬ k = name := fun e => h e.symm
      simp [set, get, h, h2]
  | cons p tl ih =>
    obtain ⟨a, w⟩ := p
    by_cases hak : a = k
    · by_cases h : name = k
      · simp [set, get, hak, h]
      · have h2 : ¬ k = name := fun e => h e.symm
        simp [set, get, hak, h, h2]
    · by_cases han : a = name
      · have h : ¬ name = k := fun e => hak (han.trans e)
        simp [set, get, hak, han, h]
      · simp [set, get, hak, han, ih]

theorem get_remove (hs : Headers) (k : String) (name : String) :
    (hs.remove k).get name = if name = k then none else hs.get name := by
  induction hs with
  | nil => simp [remove, get]
  | cons p tl ih =>
    obtain ⟨a, w⟩ := p
    by_cases hak : a = k
    · by_cases h : name = k
      · subst h
        simpa [remove, get, hak] using ih
      · have h2 : ¬ k = name := fun e => h e.symm
        simp [remove, get, hak, h, h2, ih]
    · by_cases han : a = name
      · have h : ¬ name = k := fun e => hak (han.trans e)
        simp [remove, get, hak, han, h]
      · simp [remove, get, hak, han, ih]

end Headers

/-! ## The compression policy -/

/-- C1. `shouldCompress` of proxy.js is the six-rule policy of the
specification: on every content type, every integer origin size, every value of
the `range` header (a header that is absent or empty counts as no range
request) and every `webp` flag it returns the policy's answer, which is `true`
exactly when the content type starts with `"image"`, the size is not 0, no
range is requested, it is not the case that the target is JPEG, the type ends
in `"png"` or `"gif"` and the size is below 50000, and it is not the case that
the target is WEBP and the size is below 10000. `image/png` to JPEG gives
`false` at 20000 and `true` at 60000; WEBP gives `false` at 5000 and `true` at
15000. -/
theorem proxy_shouldCompress_eq_policy (req : ProxyJs.Req) (ct : String)
    (hct : req.params.originType = some ct) :
    ProxyJs.shouldCompress req =
        Except.ok (Spec.shouldCompress ct req.params.originSize
          (JS.truthy req.headers.range) req.params.webp) ∧
      (ProxyJs.shouldCompress req = Except.ok true ↔
        (JS.startsWith ct "image" = true ∧ req.params.originSize ≠ 0 ∧
          JS.truthy req.headers.range = false ∧
          ¬ (req.params.webp = false ∧
              (JS.endsWith ct "png" = true ∨ JS.endsWith ct "gif" = true) ∧
              req.params.originSize < 50000) ∧
          ¬ (req.params.webp = true ∧ req.params.originSize < 10000))) ∧
      ProxyJs.shouldCompress
          { params := { url := "http://example.com/a.png", webp := false, quality := 80,
                        originType := some "image/png", originSize := 20000 } } =
        Except.ok false ∧
      ProxyJs.shouldCompress
          { params := { url := "http://example.com/a.png", webp := false, quality := 80,
                        originType := some "image/png", originSize := 60000 } } =
        Except.ok true ∧
      ProxyJs.shouldCompress
          { params := { url := "http://example.com/a.png", webp := true, quality := 80,
                        originType := some "image/png", originSize := 5000 } } =
        Except.ok false ∧
      ProxyJs.shouldCompress
          { params := { url := "http://example.com/a.png", webp := true, quality := 80,
                        originType := some "image/png", originSize := 15000 } } =
        Except.ok true := by
  refine ⟨?_, ?_, ?_, ?_, ?_, ?_⟩
  · simp only [ProxyJs.shouldCompress, Spec.shouldCompress, hct,
      ProxyJs.MIN_TRANSPARENT_COMPRESS_LENGTH, ProxyJs.MIN_COMPRESS_LENGTH]
    cases hs : JS.startsWith ct "image" <;> cases hw : req.params.webp <;>
      cases hr : JS.truthy req.headers.range <;>
      cases hp : JS.endsWith ct "png" <;> cases hg : JS.endsWith ct "gif" <;>
      by_cases h0 : req.params.originSize = 0 <;>
      by_cases h1 : req.params.originSize < 50000 <;>
      by_cases h2 : req.params.originSize < 10000 <;>
      simp [h0, h1, h2, pure, Except.pure]
  · simp only [ProxyJs.shouldCompress, hct,
      ProxyJs.MIN_TRANSPARENT_COMPRESS_LENGTH, ProxyJs.MIN_COMPRESS_LENGTH]
    cases hs : JS.startsWith ct "image" <;> cases hw : req.params.webp <;>
      cases hr : JS.truthy req.headers.range <;>
      cases hp : JS.endsWith ct "png" <;> cases hg : JS.endsWith ct "gif" <;>
      by_cases h0 : req.params.originSize = 0 <;>
      by_cases h1 : req.params.originSize < 50000 <;>
      by_cases h2 : req.params.originSize < 10000 <;>
      simp [h0, h1, h2, pure, Except.pure]
  · decide
  · decide
  · decide
  · decide

/-- C1, at an `image/png` origin of 60000 bytes requested as JPEG. -/
theorem proxy_shouldCompress_eq_policy_witness :
    ProxyJs.shouldCompress
        { params := { url := "http://example.com/a.png", webp := false, quality := 80,
                      originType := some "image/png", originSize := 60000 } } =
      Except.ok true :=
  ((proxy_shouldCompress_eq_policy
      { params := { url := "http://example.com/a.png", webp := false, quality := 80,
                    originType := some "image/png", originSize := 60000 } }
      "image/png" rfl).2.1).2 (by decide)

/-! ## The bypass projection -/

theorem projectStep_get (origin : OriginHeaders) (r : Res) (header name : String) :
    (projectStep origin r header).headers.get name =
      if name = JS.lower header then projected origin header (r.headers.get name)
      else r.headers.get name := by
  unfold projectStep projected
  cases origin.get header with
  | none => simp
  | some v => by_cases hv : v = "" <;> simp [hv, Res.setHeader, Headers.get_set]

theorem projectStep_frame (origin : OriginHeaders) (r : Res) (header : String) :
    (projectStep origin r header).headersSent = r.headersSent ∧
      (projectStep origin r header).statusCode = r.statusCode ∧
      (projectStep origin r header).body = r.body ∧
      (projectStep origin r header).ended = r.ended := by
  unfold projectStep
  cases origin.get header with
  | none => simp
  | some v => by_cases hv : v = "" <;> simp [hv, Res.setHeader]

theorem projectHeaders_eq (origin : OriginHeaders) (r : Res) :
    projectHeaders origin r =
      projectStep origin
        (projectStep origin
          (projectStep origin (projectStep origin r "accept-ranges") "content-type")
          "content-length")
        "content-range" := rfl

theorem projectHeaders_frame (origin : OriginHeaders) (r : Res) :
    (projectHeaders origin r).headersSent = r.headersSent ∧
      (projectHeaders origin r).statusCode = r.statusCode ∧
      (projectHeaders origin r).body = r.body ∧
      (projectHeaders origin r).ended = r.ended := by
  rw [projectHeaders_eq]
  simp [projectStep_frame]

theorem lower_bypass_names :
    JS.lower "accept-ranges" = "accept-ranges" ∧ JS.lower "content-type" = "content-type" ∧
      JS.lower "content-length" = "content-length" ∧
      JS.lower "content-range" = "content-range" := by decide

/-- A header outside the four projected names is not touched. -/
theorem projectHeaders_get_other (origin : OriginHeaders) (r : Res) (name : String)
    (h : name ∉ bypassHeaderNames) :
    (projectHeaders origin r).headers.get name = r.headers.get name := by
  simp only [bypassHeaderNames, List.mem_cons, List.mem_singleton, List.not_mem_nil,
    or_false, not_or] at h
  obtain ⟨h1, h2, h3, h4⟩ := h
  obtain ⟨l1, l2, l3, l4⟩ := lower_bypass_names
  rw [projectHeaders_eq]
  simp [projectStep_get, l1, l2, l3, l4, h1, h2, h3, h4]

/-- A projected name carries the origin's value when that is non-empty, and
keeps what the response had otherwise. -/
theorem projectHeaders_get_mem (origin : OriginHeaders) (r : Res) (name : String)
    (h : name ∈ bypassHeaderNames) :
    (projectHeaders origin r).headers.get name =
      projected origin name (r.headers.get name) := by
  simp only [bypassHeaderNames, List.mem_cons, List.mem_singleton, List.not_mem_nil,
    or_false] at h
  obtain ⟨l1, l2, l3, l4⟩ := lower_bypass_names
  rw [projectHeaders_eq]
  rcases h with h | h | h | h <;> subst h <;>
    simp [projectStep_get, l1, l2, l3, l4]

/-- When the policy declines, `handleRequest` of proxy.js runs its bypass
branch. -/
theorem proxy_handleRequest_bypass (sharp : ProxyJs.SharpOutcome) (req : ProxyJs.Req)
    (res : Res) (origin : ProxyJs.Origin)
    (h : ProxyJs.shouldCompress req = Except.ok false) :
    ProxyJs.handleRequest sharp req res origin =
      Except.ok
        { res := (projectHeaders origin.headers
            (res.setHeader "X-Proxy-Bypass" (HVal.num 1))).pipe origin.data } := by
  simp only [ProxyJs.handleRequest, h, bind, Except.bind]
  rfl

/-- C2. In each of the three variants of `shouldCompress` a content type that
does not start with `"image"` gives `false`, whatever the origin size, the
range header and the target format are. -/
theorem shouldCompress_false_of_not_image (ct : String)
    (hct : JS.startsWith ct "image" = false)
    (reqP : ProxyJs.Req) (hP : reqP.params.originType = some ct)
    (req1 : Proxy1Js.Req) (h1 : req1.params.originType = ct)
    (originSize : Int) (isWebp : Bool) :
    ProxyJs.shouldCompress reqP = Except.ok false ∧
      Proxy1Js.shouldCompress req1 = false ∧
      RequestJs.shouldCompress (some ct) originSize isWebp = Except.ok false := by
  refine ⟨?_, ?_, ?_⟩
  · simp [ProxyJs.shouldCompress, hP, hct, pure, Except.pure]
  · simp [Proxy1Js.shouldCompress, h1, hct]
  · simp [RequestJs.shouldCompress, hct, pure, Except.pure]

/-- C2, at the content type `text/html`. -/
theorem shouldCompress_false_of_not_image_witness :
    ProxyJs.shouldCompress
        { params := { url := "http://example.com/", webp := true, quality := 80,
                      originType := some "text/html", originSize := 60000 } } =
        Except.ok false ∧
      Proxy1Js.shouldCompress
        { params := { url := "http://example.com/", webp := true, quality := 40,
                      originType := "text/html", originSize := JS.Value.str "60000" } } =
        false ∧
      RequestJs.shouldCompress (some "text/html") 60000 true = Except.ok false :=
  shouldCompress_false_of_not_image "text/html" (by decide)
    { params := { url := "http://example.com/", webp := true, quality := 80,
                  originType := some "text/html", originSize := 60000 } } rfl
    { params := { url := "http://example.com/", webp := true, quality := 40,
                  originType := "text/html", originSize := JS.Value.str "60000" } } rfl
    60000 true

/-- For an origin that sent a content type: in proxy.js, when the origin size
is 0 or the request carries a non-empty `range` header, `shouldCompress` is
`false` for every content type and target format, and `handleRequest` takes the
bypass path on a response whose headers are not yet sent: `compress` is not
invoked, `X-Proxy-Bypass` is set to 1, and the origin body is piped to the
response unmodified, which ends it. -/
theorem proxy_bypass_of_empty_or_range (sharp : ProxyJs.SharpOutcome) (req : ProxyJs.Req)
    (res : Res) (origin : ProxyJs.Origin) (ct : String)
    (hct : req.params.originType = some ct)
    (h : req.params.originSize = 0 ∨ JS.truthy req.headers.range = true)
    (_hres : res.headersSent = false) :
    ProxyJs.shouldCompress req = Except.ok false ∧
      ∃ run, ProxyJs.handleRequest sharp req res origin = Except.ok run ∧
        run.compressInvoked = false ∧
        run.res.getHeader "X-Proxy-Bypass" = some (HVal.num 1) ∧
        run.res.body = res.body ++ origin.data ∧
        run.res.ended = true ∧
        run.res.statusCode = res.statusCode := by
  have hsc : ProxyJs.shouldCompress req = Except.ok false := by
    simp only [ProxyJs.shouldCompress, hct]
    cases hs : JS.startsWith ct "image"
    · simp [pure, Except.pure]
    · rcases h with h | h <;> simp [h, pure, Except.pure]
  refine ⟨hsc, _, proxy_handleRequest_bypass sharp req res origin hsc, ?_, ?_, ?_, ?_, ?_⟩
  · rfl
  · have hl : JS.lower "X-Proxy-Bypass" = "x-proxy-bypass" := by decide
    have hn : "x-proxy-bypass" ∉ bypassHeaderNames := by decide
    simp [Res.getHeader, Res.pipe, hl, projectHeaders_get_other _ _ _ hn, Res.setHeader,
      Headers.get_set]
  · simp [Res.pipe, (projectHeaders_frame _ _).2.2.1, Res.setHeader]
  · simp [Res.pipe]
  · simp [Res.pipe, (projectHeaders_frame _ _).2.1, Res.setHeader]

/-- The bypass of a 60000-byte `image/jpeg` origin requested with
`range: bytes=0-99`. -/
theorem proxy_bypass_of_empty_or_range_witness :
    ProxyJs.shouldCompress
        { headers := { range := some "bytes=0-99" }
          params := { url := "http://example.com/a.jpg", webp := true, quality := 80,
                      originType := some "image/jpeg", originSize := 60000 } } =
      Except.ok false :=
  (proxy_bypass_of_empty_or_range
    (ProxyJs.SharpOutcome.toFileCallback false (some 1000) (some [Chunk.bytes [1]]))
    { headers := { range := some "bytes=0-99" }
      params := { url := "http://example.com/a.jpg", webp := true, quality := 80,
                  originType := some "image/jpeg", originSize := 60000 } }
    Res.fresh
    { headers := [("content-type", "image/jpeg"), ("content-length", "60000")]
      data := [Chunk.bytes [255, 216]] }
    "image/jpeg" rfl (Or.inr (by decide)) rfl).1

/-- C3, at the failing inputs: an origin that answers 200 without a
`content-type` header, once without `content-length` (origin size 0) and once
with 60000 bytes to a request carrying `range: bytes=0-99`. `originType` is
`undefined`, `shouldCompress` throws on `originType.startsWith` before it tests
the size or the range, and `fetchImageAndHandle` catches the error: the client
gets status 500 with the text `Failed to fetch the image.`, `X-Proxy-Bypass`
is not set and the origin body is not piped. -/
theorem proxy_missing_content_type_is_not_bypassed :
    ProxyJs.shouldCompress
        { params := { url := "http://example.com/a", webp := true, quality := 80,
                      originType := none, originSize := 0 } } =
      Except.error JS.Error.typeError ∧
    ProxyJs.shouldCompress
        { headers := { range := some "bytes=0-99" }
          params := { url := "http://example.com/a", webp := true, quality := 80,
                      originType := none, originSize := 60000 } } =
      Except.error JS.Error.typeError ∧
    (ProxyJs.fetchImageAndHandle
        { decodeURIComponent := fun s => some s
          request := fun _ => ProxyJs.FetchResult.response 200 [] [Chunk.bytes [71, 73, 70]]
          sharp := ProxyJs.SharpOutcome.metadataRejected }
        { query := { url := some "http://example.com/a" }
          params := { url := "", webp := false, quality := 0 } }
        Res.fresh).map
      (fun run => (run.res.statusCode, run.res.getHeader "X-Proxy-Bypass", run.res.body,
        run.compressInvoked)) =
      Except.ok (500, none, [Chunk.text "Failed to fetch the image."], false) ∧
    (ProxyJs.fetchImageAndHandle
        { decodeURIComponent := fun s => some s
          request := fun _ =>
            ProxyJs.FetchResult.response 200 [("content-length", "60000")]
              [Chunk.bytes [71, 73, 70]]
          sharp := ProxyJs.SharpOutcome.metadataRejected }
        { query := { url := some "http://example.com/a" }
          headers := { range := some "bytes=0-99" }
          params := { url := "", webp := false, quality := 0 } }
        Res.fresh).map
      (fun run => (run.res.statusCode, run.res.getHeader "X-Proxy-Bypass", run.res.body,
        run.compressInvoked)) =
      Except.ok (500, none, [Chunk.text "Failed to fetch the image."], false) := by
  refine ⟨?_, ?_, ?_, ?_⟩ <;> decide

/-- C4, at the failing input: a JPEG-target request (`jpeg=1`) for an origin
that answers 200 with `content-type: image/jpeg` and no `content-length`. The
fallback size is the string `"0"`, which `originSize === 0` does not recognise:
`shouldCompress` returns `true`, `compress` is invoked and the response carries
no `x-proxy-bypass` header. -/
theorem hhproxy_unknown_length_is_compressed :
    Proxy1Js.shouldCompress
        { params := { url := "http://example.com/a.jpg", webp := false, quality := 40,
                      originType := "image/jpeg", originSize := JS.Value.str "0" } } = true ∧
      (Proxy1Js.hhproxy
          { validURL := fun _ => true
            request := fun _ =>
              Proxy1Js.FetchResult.response 200 [("content-type", "image/jpeg")]
                [Chunk.bytes [255, 216]]
            sharp := Proxy1Js.SharpOutcome.encoded 1000 [Chunk.bytes [255, 216]] }
          { query := { url := some "http://example.com/a.jpg", jpeg := some "1" }
            params := { url := "", webp := false, quality := 0 } }
          Res.fresh).map
        (fun run => (run.compressInvoked, run.res.getHeader "x-proxy-bypass",
          run.res.getHeader "x-original-size")) =
        Except.ok (true, none, some (HVal.str "0")) := by
  constructor <;> decide

/-! ## The transform path -/

/-- Writing chunks does not touch headers or status, and appends to the body. -/
theorem foldl_write_frame (data : List Chunk) (r : Res) :
    (data.foldl Res.write r).headers = r.headers ∧
      (data.foldl Res.write r).statusCode = r.statusCode ∧
      (data.foldl Res.write r).body = r.body ++ data ∧
      (data.foldl Res.write r).ended = r.ended := by
  induction data generalizing r with
  | nil => simp
  | cons c tl ih =>
    obtain ⟨h1, h2, h3, h4⟩ := ih (r.write c)
    refine ⟨h1.trans rfl, h2.trans rfl, ?_, h4.trans rfl⟩
    rw [List.foldl, h3]
    simp [Res.write]

theorem lower_transform_names :
    JS.lower "content-type" = "content-type" ∧ JS.lower "content-length" = "content-length" ∧
      JS.lower "x-original-size" = "x-original-size" ∧
      JS.lower "x-bytes-saved" = "x-bytes-saved" ∧
      JS.lower "Content-Type" = "content-type" ∧ JS.lower "Content-Length" = "content-length" ∧
      JS.lower "X-Original-Size" = "x-original-size" ∧
      JS.lower "X-Bytes-Saved" = "x-bytes-saved" := by decide

/-- C5. On the success of the transform path (the codec reports an encoded
size, and the headers are not yet sent), `compress` of proxy.js and `compress`
with its `setResponseHeaders` of proxy1.js leave `content-type` equal to
`"image/"` followed by the target format (`webp` when the flag is set, `jpeg`
otherwise), `content-length` equal to the encoded size, `x-original-size` equal
to the origin size, and `x-bytes-saved` equal to the origin size minus the
encoded size as an integer, negative when the output is larger. In proxy1.js
the origin size is the `content-length` string `s` of the origin, of numeric
value `n`. -/
theorem transform_sets_size_headers (res : Res) (hres : res.headersSent = false)
    (size : Nat) (out : List Chunk) (input : List Chunk)
    (req : ProxyJs.Req) (req1 : Proxy1Js.Req) (s : String) (n : Int)
    (hs : req1.params.originSize = JS.Value.str s) (hn : JS.toNumber s = some n) :
    ((ProxyJs.compress (ProxyJs.SharpOutcome.toFileCallback false (some size) (some out))
          req res input).getHeader "content-type" =
        some (HVal.str ("image/" ++ (if req.params.webp then "webp" else "jpeg"))) ∧
      (ProxyJs.compress (ProxyJs.SharpOutcome.toFileCallback false (some size) (some out))
          req res input).getHeader "content-length" = some (HVal.num size) ∧
      (ProxyJs.compress (ProxyJs.SharpOutcome.toFileCallback false (some size) (some out))
          req res input).getHeader "x-original-size" =
        some (HVal.num req.params.originSize) ∧
      (ProxyJs.compress (ProxyJs.SharpOutcome.toFileCallback false (some size) (some out))
          req res input).getHeader "x-bytes-saved" =
        some (HVal.num (req.params.originSize - size))) ∧
    ((Proxy1Js.compress (Proxy1Js.SharpOutcome.encoded size out) req1 res
          input).getHeader "content-type" =
        some (HVal.str ("image/" ++ (if req1.params.webp then "webp" else "jpeg"))) ∧
      (Proxy1Js.compress (Proxy1Js.SharpOutcome.encoded size out) req1 res
          input).getHeader "content-length" = some (HVal.num size) ∧
      (Proxy1Js.compress (Proxy1Js.SharpOutcome.encoded size out) req1 res
          input).getHeader "x-original-size" = some (HVal.str s) ∧
      (Proxy1Js.compress (Proxy1Js.SharpOutcome.encoded size out) req1 res
          input).getHeader "x-bytes-saved" = some (HVal.num (n - size))) := by
  obtain ⟨l1, l2, l3, l4, l5, l6, l7, l8⟩ := lower_transform_names
  constructor
  · simp [ProxyJs.compress, hres, Res.getHeader, Res.setHeader, Res.pipe, Headers.get_set,
      l1, l2, l3, l4]
  · simp [Proxy1Js.compress, Proxy1Js.setResponseHeaders, Res.getHeader, Res.setHeader,
      Res.finish, Res.status, (foldl_write_frame _ _).1, Headers.get_set, l1, l2, l3, l4,
      l5, l6, l7, l8, hs, Proxy1Js.headerOfValue, Proxy1Js.headerOfNumber, JS.Value.sub,
      JS.Value.toNumber, hn]

/-- C5, at a 20000-byte origin whose WEBP output has 25000 bytes: 5000 bytes
are lost, and `x-bytes-saved` is -5000. -/
theorem transform_sets_size_headers_witness :
    (ProxyJs.compress
        (ProxyJs.SharpOutcome.toFileCallback false (some 25000) (some [Chunk.bytes [82, 73]]))
        { params := { url := "http://example.com/a.png", webp := true, quality := 80,
                      originType := some "image/png", originSize := 20000 } }
        Res.fresh [Chunk.bytes [137, 80]]).getHeader "x-bytes-saved" =
      some (HVal.num (20000 - (25000 : Nat))) ∧
    (Proxy1Js.compress (Proxy1Js.SharpOutcome.encoded 25000 [Chunk.bytes [82, 73]])
        { params := { url := "http://example.com/a.png", webp := true, quality := 40,
                      originType := "image/png", originSize := JS.Value.str "20000" } }
        Res.fresh [Chunk.bytes [137, 80]]).getHeader "x-bytes-saved" =
      some (HVal.num (20000 - (25000 : Nat))) :=
  have h := transform_sets_size_headers Res.fresh rfl 25000 [Chunk.bytes [82, 73]]
    [Chunk.bytes [137, 80]]
    { params := { url := "http://example.com/a.png", webp := true, quality := 80,
                  originType := some "image/png", originSize := 20000 } }
    { params := { url := "http://example.com/a.png", webp := true, quality := 40,
                  originType := "image/png", originSize := JS.Value.str "20000" } }
    "20000" 20000 rfl (by decide)
  ⟨h.1.2.2.2, h.2.2.2.2⟩

/-! ## The fallback redirect -/

theorem lower_redirect_names :
    JS.lower "content-length" = "content-length" ∧ JS.lower "cache-control" = "cache-control" ∧
      JS.lower "expires" = "expires" ∧ JS.lower "date" = "date" ∧ JS.lower "etag" = "etag" ∧
      JS.lower "location" = "location" := by decide

theorem proxy_redirect_sent (req : ProxyJs.Req) (res : Res) (h : res.headersSent = true) :
    ProxyJs.redirect req res = res := by
  simp [ProxyJs.redirect, h]

theorem proxy1_redirect_sent (req : Proxy1Js.Req) (res : Res) (h : res.headersSent = true) :
    Proxy1Js.redirect req res = res := by
  simp [Proxy1Js.redirect, h]

theorem proxy_redirect_headersSent (req : ProxyJs.Req) (res : Res) :
    (ProxyJs.redirect req res).headersSent = true := by
  by_cases h : res.headersSent = true
  · rw [proxy_redirect_sent req res h, h]
  · simp [ProxyJs.redirect, h, Res.finish]

theorem proxy1_redirect_headersSent (req : Proxy1Js.Req) (res : Res) :
    (Proxy1Js.redirect req res).headersSent = true := by
  by_cases h : res.headersSent = true
  · rw [proxy1_redirect_sent req res h, h]
  · simp [Proxy1Js.redirect, h, Res.finish]

/-- On a response whose headers are not sent and that has no body yet,
`redirect` of proxy.js produces the fallback response. -/
theorem proxy_redirect_isFallback (req : ProxyJs.Req) (res : Res)
    (h : res.headersSent = false) (hb : res.body = []) :
    IsFallback res (ProxyJs.redirect req res) req.params.url := by
  obtain ⟨l1, l2, l3, l4, l5, l6⟩ := lower_redirect_names
  refine ⟨?_, ?_, ?_, ?_, ?_, ?_, ?_, ?_, ?_, ?_⟩ <;>
    try simp [ProxyJs.redirect, h, hb, Res.finish, Res.status, Res.getHeader,
      Res.setHeader, Res.removeHeader, Headers.get_set, Headers.get_remove,
      l1, l2, l3, l4, l5, l6]
  intro name hname
  simp only [redirectHeaderNames, List.mem_cons, List.mem_singleton, List.not_mem_nil,
    or_false, not_or] at hname
  obtain ⟨h1, h2, h3, h4, h5, h6⟩ := hname
  simp [ProxyJs.redirect, h, Res.finish, Res.status, Res.setHeader, Res.removeHeader,
    Headers.get_set, Headers.get_remove, l1, l2, l3, l4, l5, l6, h1, h2, h3, h4, h5, h6]

/-- On a response whose headers are not sent and that has no body yet,
`redirect` of proxy1.js produces the fallback response. -/
theorem proxy1_redirect_isFallback (req : Proxy1Js.Req) (res : Res)
    (h : res.headersSent = false) (hb : res.body = []) :
    IsFallback res (Proxy1Js.redirect req res) req.params.url := by
  obtain ⟨l1, l2, l3, l4, l5, l6⟩ := lower_redirect_names
  refine ⟨?_, ?_, ?_, ?_, ?_, ?_, ?_, ?_, ?_, ?_⟩ <;>
    try simp [Proxy1Js.redirect, h, hb, Res.finish, Res.status, Res.getHeader,
      Res.setHeader, Res.removeHeader, Headers.get_set, Headers.get_remove,
      l1, l2, l3, l4, l5, l6]
  intro name hname
  simp only [redirectHeaderNames, List.mem_cons, List.mem_singleton, List.not_mem_nil,
    or_false, not_or] at hname
  obtain ⟨h1, h2, h3, h4, h5, h6⟩ := hname
  simp [Proxy1Js.redirect, h, Res.finish, Res.status, Res.setHeader, Res.removeHeader,
    Headers.get_set, Headers.get_remove, l1, l2, l3, l4, l5, l6, h1, h2, h3, h4, h5, h6]

/-- C6. `redirect` of proxy.js and of proxy1.js, on a response in which body
bytes are only ever written after the headers went out: when `headersSent` is
true the response is left unchanged; otherwise the result has status 302,
`content-length` 0, `location` equal to `encodeURI(req.params.url)`, no
`cache-control`, `expires`, `date` or `etag` header, every other header
unchanged, an empty body, and is ended. Calling `redirect` twice gives the same
state as calling it once. -/
theorem redirect_fallback_state (reqP : ProxyJs.Req) (req1 : Proxy1Js.Req) (res : Res)
    (hwf : res.body ≠ [] → res.headersSent = true) :
    (res.headersSent = true →
        ProxyJs.redirect reqP res = res ∧ Proxy1Js.redirect req1 res = res) ∧
      (res.headersSent = false →
        IsFallback res (ProxyJs.redirect reqP res) reqP.params.url ∧
          IsFallback res (Proxy1Js.redirect req1 res) req1.params.url) ∧
      ProxyJs.redirect reqP (ProxyJs.redirect reqP res) = ProxyJs.redirect reqP res ∧
      Proxy1Js.redirect req1 (Proxy1Js.redirect req1 res) = Proxy1Js.redirect req1 res := by
  refine ⟨?_, ?_, ?_, ?_⟩
  · intro h
    exact ⟨proxy_redirect_sent reqP res h, proxy1_redirect_sent req1 res h⟩
  · intro h
    have hb : res.body = [] := by
      by_contra hne
      rw [hwf hne] at h
      exact Bool.noConfusion h
    exact ⟨proxy_redirect_isFallback reqP res h hb, proxy1_redirect_isFallback req1 res h hb⟩
  · exact proxy_redirect_sent reqP _ (proxy_redirect_headersSent reqP res)
  · exact proxy1_redirect_sent req1 _ (proxy1_redirect_headersSent req1 res)

/-- C6, on a fresh response that carries `etag` and `x-powered-by`, for the
url `http://example.com/a b.jpg`. -/
theorem redirect_fallback_state_witness :
    (ProxyJs.redirect
        { params := { url := "http://example.com/a b.jpg", webp := true, quality := 80 } }
        { Res.fresh with
          headers := [("etag", HVal.str "W/1"), ("x-powered-by", HVal.str "Express")] }) =
      { headersSent := true, statusCode := 302,
        headers := [("x-powered-by", HVal.str "Express"), ("content-length", HVal.num 0),
                    ("location", HVal.str "http://example.com/a%20b.jpg")],
        body := [], ended := true } ∧
    IsFallback
      { Res.fresh with
        headers := [("etag", HVal.str "W/1"), ("x-powered-by", HVal.str "Express")] }
      (ProxyJs.redirect
        { params := { url := "http://example.com/a b.jpg", webp := true, quality := 80 } }
        { Res.fresh with
          headers := [("etag", HVal.str "W/1"), ("x-powered-by", HVal.str "Express")] })
      "http://example.com/a b.jpg" :=
  ⟨by decide,
    ((redirect_fallback_state
      { params := { url := "http://example.com/a b.jpg", webp := true, quality := 80 } }
      { params := { url := "http://example.com/a b.jpg", webp := true, quality := 40 } }
      { Res.fresh with
        headers := [("etag", HVal.str "W/1"), ("x-powered-by", HVal.str "Express")] }
      (fun hne => absurd rfl hne)).2.1 rfl).1⟩

/-! ## Copying every origin header (proxy1.js) -/

/-- A name that no origin header lower-cases to is not touched by
`copyHeaders`. -/
theorem copyHeaders_get_other (source : OriginHeaders) (target : Res) (name : String)
    (h : ∀ p ∈ source, JS.lower p.1 ≠ name) :
    (Proxy1Js.copyHeaders source target).headers.get name = target.headers.get name := by
  induction source generalizing target with
  | nil => rfl
  | cons p tl ih =>
    have htl : ∀ q ∈ tl, JS.lower q.1 ≠ name := fun q hq => h q (List.mem_cons_of_mem _ hq)
    have hp : ¬ name = JS.lower p.1 := fun e => h p (List.mem_cons_self _ _) e.symm
    have := ih (target.setHeader p.1 (HVal.str p.2)) htl
    simp only [Proxy1Js.copyHeaders, List.foldl] at this ⊢
    rw [this]
    simp [Res.setHeader, Headers.get_set, hp]

/-- Every origin header ends up on the response with a value of the origin. -/
theorem copyHeaders_get_mem (source : OriginHeaders) (target : Res) (k v : String)
    (h : (k, v) ∈ source) :
    ∃ k1 v1, (k1, v1) ∈ source ∧ JS.lower k1 = JS.lower k ∧
      (Proxy1Js.copyHeaders source target).headers.get (JS.lower k) = some (HVal.str v1) := by
  induction source generalizing target k v with
  | nil => cases h
  | cons p tl ih =>
    by_cases hex : ∃ q ∈ tl, JS.lower q.1 = JS.lower k
    · obtain ⟨q, hq, hql⟩ := hex
      obtain ⟨k1, v1, hm, hl, hg⟩ := ih (target.setHeader p.1 (HVal.str p.2)) q.1 q.2 hq
      refine ⟨k1, v1, List.mem_cons_of_mem _ hm, hl.trans hql, ?_⟩
      rw [← hql]
      exact hg
    · have hnone : ∀ q ∈ tl, JS.lower q.1 ≠ JS.lower k := fun q hq e => hex ⟨q, hq, e⟩
      have hp : p = (k, v) := by
        rcases List.mem_cons.mp h with h1 | h1
        · exact h1.symm
        · exact absurd rfl (hnone (k, v) h1)
      refine ⟨k, v, h, rfl, ?_⟩
      have := copyHeaders_get_other tl (target.setHeader p.1 (HVal.str p.2)) (JS.lower k) hnone
      simp only [Proxy1Js.copyHeaders, List.foldl] at this ⊢
      rw [this, hp]
      simp [Res.setHeader, Headers.get_set]

/-- The response of the bypass branch of the origin callback of proxy1.js. -/
theorem proxy1_originCallback_bypass (sharp : Proxy1Js.SharpOutcome) (req : Proxy1Js.Req)
    (res : Res) (statusCode : Nat) (headers : OriginHeaders) (body : List Chunk)
    (hok : (decide (statusCode ≥ 400) ||
      (decide (statusCode ≥ 300) && JS.truthy (headers.get "location"))) = false)
    (hbp : (Proxy1Js.originCallback sharp req res statusCode headers body).compressInvoked =
      false) :
    (Proxy1Js.originCallback sharp req res statusCode headers body).res =
      (body.foldl Res.write
        (projectHeaders headers
          ((((((Proxy1Js.copyHeaders headers res).setHeader "content-encoding"
            (HVal.str "identity")).setHeader "Access-Control-Allow-Origin"
            (HVal.str "*")).setHeader "Cross-Origin-Resource-Policy"
            (HVal.str "cross-origin")).setHeader "Cross-Origin-Embedder-Policy"
            (HVal.str "unsafe-none")).setHeader "x-proxy-bypass" (HVal.num 1)))).finish := by
  unfold Proxy1Js.originCallback at hbp ⊢
  rw [if_neg (by rw [hok]; exact Bool.false_ne_true)] at hbp ⊢
  by_cases hsc : Proxy1Js.shouldCompress (Proxy1Js.withOrigin req headers) = true
  · simp [hsc] at hbp
  · simp [hsc]

theorem lower_hhproxy_names :
    JS.lower "content-encoding" = "content-encoding" ∧
      JS.lower "Access-Control-Allow-Origin" = "access-control-allow-origin" ∧
      JS.lower "Cross-Origin-Resource-Policy" = "cross-origin-resource-policy" ∧
      JS.lower "Cross-Origin-Embedder-Policy" = "cross-origin-embedder-policy" ∧
      JS.lower "x-proxy-bypass" = "x-proxy-bypass" ∧
      JS.lower "X-Proxy-Bypass" = "x-proxy-bypass" := by decide

/-- C7, refuted for proxy1.js: an origin that answers 200 with
`content-type: text/html` and `server: nginx` is served on the bypass path
(`x-proxy-bypass: 1`, `compress` not invoked), and the origin header `server`,
which is none of the four projected names, is on the client response. -/
theorem hhproxy_bypass_forwards_other_header :
    (Proxy1Js.hhproxy
        { validURL := fun _ => true
          request := fun _ =>
            Proxy1Js.FetchResult.response 200
              [("content-type", "text/html"), ("server", "nginx")] [Chunk.text "<html>"]
          sharp := Proxy1Js.SharpOutcome.silent }
        { query := { url := some "http://example.com/" }
          params := { url := "", webp := false, quality := 0 } }
        Res.fresh).map
      (fun run => (run.compressInvoked, run.res.getHeader "x-proxy-bypass",
        run.res.getHeader "server")) =
      Except.ok (false, some (HVal.num 1), some (HVal.str "nginx")) := by
  decide

/-- C7, amended. On the bypass path `x-proxy-bypass` is set to 1 and each of
`accept-ranges`, `content-type`, `content-length`, `content-range` that the
origin sent with a non-empty value is on the response with that value. In
`handleRequest` of proxy.js these are the only headers the path changes: a
projected name the origin did not send non-empty, and every other name, keep
the value the response had before, so no other origin header is forwarded. In
the origin callback of `hhproxy` (proxy1.js) `copyHeaders` has copied the
origin's headers first: every origin header whose name is none of the four and
none of those `hhproxy` assigns itself is on the response with a value the
origin sent under that name. -/
theorem bypass_header_projection
    (sharp : ProxyJs.SharpOutcome) (req : ProxyJs.Req) (res : Res) (origin : ProxyJs.Origin)
    (hdecl : ProxyJs.shouldCompress req = Except.ok false)
    (_hres : res.headersSent = false)
    (sharp1 : Proxy1Js.SharpOutcome) (req1 : Proxy1Js.Req) (statusCode : Nat)
    (headers : OriginHeaders) (body : List Chunk)
    (hok : (decide (statusCode ≥ 400) ||
      (decide (statusCode ≥ 300) && JS.truthy (headers.get "location"))) = false)
    (hbp : (Proxy1Js.originCallback sharp1 req1 res statusCode headers body).compressInvoked =
      false) :
    (∃ run, ProxyJs.handleRequest sharp req res origin = Except.ok run ∧
        run.compressInvoked = false ∧
        run.res.headers.get "x-proxy-bypass" = some (HVal.num 1) ∧
        (∀ name ∈ bypassHeaderNames, ∀ v, origin.headers.get name = some v → v ≠ "" →
          run.res.headers.get name = some (HVal.str v)) ∧
        (∀ name ∈ bypassHeaderNames,
          (origin.headers.get name = none ∨ origin.headers.get name = some "") →
          run.res.headers.get name = res.headers.get name) ∧
        (∀ name, name ∉ bypassHeaderNames → name ≠ "x-proxy-bypass" →
          run.res.headers.get name = res.headers.get name)) ∧
      ((Proxy1Js.originCallback sharp1 req1 res statusCode headers body).res.headers.get
          "x-proxy-bypass" = some (HVal.num 1) ∧
        (∀ name ∈ bypassHeaderNames, ∀ v, headers.get name = some v → v ≠ "" →
          (Proxy1Js.originCallback sharp1 req1 res statusCode headers body).res.headers.get
            name = some (HVal.str v)) ∧
        (∀ k v, (k, v) ∈ headers → JS.lower k ∉ bypassHeaderNames →
          JS.lower k ∉ hhproxyOwnHeaderNames →
          ∃ k1 v1, (k1, v1) ∈ headers ∧ JS.lower k1 = JS.lower k ∧
            (Proxy1Js.originCallback sharp1 req1 res statusCode headers body).res.headers.get
              (JS.lower k) = some (HVal.str v1))) := by
  obtain ⟨e1, e2, e3, e4, e5, e6⟩ := lower_hhproxy_names
  have hn : "x-proxy-bypass" ∉ bypassHeaderNames := by decide
  constructor
  · refine ⟨_, proxy_handleRequest_bypass sharp req res origin hdecl, rfl, ?_, ?_, ?_, ?_⟩
    · simp [Res.pipe, projectHeaders_get_other _ _ _ hn, Res.setHeader, Headers.get_set, e6]
    · intro name hname v hv hne
      simp [Res.pipe, projectHeaders_get_mem _ _ _ hname, projected, hv, hne]
    · intro name hname hv
      have hx : ¬ name = "x-proxy-bypass" := fun e => hn (e ▸ hname)
      rcases hv with hv | hv <;>
        simp [Res.pipe, projectHeaders_get_mem _ _ _ hname, projected, hv, Res.setHeader,
          Headers.get_set, e6, hx]
    · intro name hname hx
      simp [Res.pipe, projectHeaders_get_other _ _ _ hname, Res.setHeader, Headers.get_set,
        e6, hx]
  · rw [proxy1_originCallback_bypass sharp1 req1 res statusCode headers body hok hbp]
    refine ⟨?_, ?_, ?_⟩
    · simp [Res.finish, (foldl_write_frame _ _).1, projectHeaders_get_other _ _ _ hn,
        Res.setHeader, Headers.get_set, e5]
    · intro name hname v hv hne
      simp [Res.finish, (foldl_write_frame _ _).1, projectHeaders_get_mem _ _ _ hname,
        projected, hv, hne]
    · intro k v hkv hk1 hk2
      obtain ⟨k1, v1, hm, hl, hg⟩ := copyHeaders_get_mem headers res k v hkv
      refine ⟨k1, v1, hm, hl, ?_⟩
      simp only [hhproxyOwnHeaderNames, List.mem_cons, List.mem_singleton, List.not_mem_nil,
        or_false, not_or] at hk2
      obtain ⟨n1, n2, n3, n4, n5⟩ := hk2
      simp [Res.finish, (foldl_write_frame _ _).1, projectHeaders_get_other _ _ _ hk1,
        Res.setHeader, Headers.get_set, e1, e2, e3, e4, e5, n1, n2, n3, n4, n5, hg]

/-- C7 amended, at an origin that answers 200 with `content-type: text/html`
and `server: nginx`: proxy.js keeps `server` off the response. -/
theorem bypass_header_projection_witness :
    ∃ run,
      ProxyJs.handleRequest ProxyJs.SharpOutcome.metadataRejected
          { params := { url := "http://example.com/", webp := true, quality := 80,
                        originType := some "text/html", originSize := 1200 } }
          Res.fresh
          { headers := [("content-type", "text/html"), ("server", "nginx")]
            data := [Chunk.text "<html>"] } = Except.ok run ∧
        run.res.headers.get "content-type" = some (HVal.str "text/html") ∧
        run.res.headers.get "server" = none :=
  have h := (bypass_header_projection ProxyJs.SharpOutcome.metadataRejected
    { params := { url := "http://example.com/", webp := true, quality := 80,
                  originType := some "text/html", originSize := 1200 } }
    Res.fresh
    { headers := [("content-type", "text/html"), ("server", "nginx")]
      data := [Chunk.text "<html>"] }
    (by decide) rfl
    Proxy1Js.SharpOutcome.silent
    { params := { url := "http://example.com/", webp := true, quality := 40 } }
    200 [("content-type", "text/html"), ("server", "nginx")] [Chunk.text "<html>"]
    (by decide) (by decide)).1
  match h with
  | ⟨run, hrun, _, _, hfour, _, hother⟩ =>
    ⟨run, hrun, hfour "content-type" (by decide) "text/html" (by decide) (by decide),
      hother "server" (by decide) (by decide)⟩

/-! ## Origin errors and missing urls -/

/-- C8, refuted for proxy.js and request.js: when the origin answers 404, both
`fetchImageAndHandle` variants answer with status 404 and the text
`Failed to fetch the image.`, with no `location` header; the status is not
302. -/
theorem fetchImageAndHandle_passes_origin_status :
    (ProxyJs.fetchImageAndHandle
        { decodeURIComponent := fun s => some s
          request := fun _ => ProxyJs.FetchResult.response 404 [] []
          sharp := ProxyJs.SharpOutcome.metadataRejected }
        { query := { url := some "http://example.com/a.jpg" }
          params := { url := "", webp := false, quality := 0 } }
        Res.fresh).map
      (fun run => (run.res.statusCode, run.res.getHeader "location", run.res.body)) =
      Except.ok (404, none, [Chunk.text "Failed to fetch the image."]) ∧
    (RequestJs.fetchImageAndHandle
        { get := fun _ => RequestJs.FetchResult.response 404 [] []
          sharp := RequestJs.SharpOutcome.metadataRejected }
        { query := { url := some "http://example.com/a.jpg" } }
        Res.fresh).map
      (fun run => (run.res.statusCode, run.res.getHeader "location", run.res.body)) =
      Except.ok (404, none, [Chunk.text "Failed to fetch the image."]) := by
  constructor <;> decide

/-- C8, amended. When the origin answers with a status code of 400 or more,
`hhproxy` (proxy1.js) gives the fallback: status 302, `content-length` 0,
`location` the percent-encoding of `req.params.url` (the requested url after
the prefix rewrite of `hhproxy`), no body, ended, `compress` not invoked and
`x-proxy-bypass` not assigned. `fetchImageAndHandle` of proxy.js and of
request.js instead answer with the origin's status code and the text
`Failed to fetch the image.`, leaving the headers as they were; neither invokes
`compress` nor pipes the origin body. The response headers are not yet sent and
nothing is written when the handler starts. -/
theorem origin_error_status (u : String) (hu : u ≠ "") (statusCode : Nat)
    (headers : OriginHeaders) (body : List Chunk) (hsc : statusCode ≥ 400)
    (res : Res) (hres : res.headersSent = false) (hbody : res.body = [])
    (env1 : Proxy1Js.Env) (req1 : Proxy1Js.Req) (hq1 : req1.query.url = some u)
    (hvalid : env1.validURL (Proxy1Js.replaceBmi u) = true)
    (hfetch1 : env1.request (Proxy1Js.replaceBmi u) =
      Proxy1Js.FetchResult.response statusCode headers body)
    (envP : ProxyJs.Env) (reqP : ProxyJs.Req) (hqP : reqP.query.url = some u)
    (d : String) (hdec : envP.decodeURIComponent u = some d)
    (hfetchP : envP.request d = ProxyJs.FetchResult.response statusCode headers body)
    (envR : RequestJs.Env) (reqR : RequestJs.Req) (hqR : reqR.query.url = some u)
    (hfetchR : envR.get u = RequestJs.FetchResult.response statusCode headers body) :
    (∃ run, Proxy1Js.hhproxy env1 req1 res = Except.ok run ∧
        IsFallback res run.res (Proxy1Js.replaceBmi u) ∧
        run.compressInvoked = false ∧
        run.res.headers.get "x-proxy-bypass" = res.headers.get "x-proxy-bypass") ∧
      ProxyJs.fetchImageAndHandle envP reqP res =
        Except.ok
          { res := (res.status statusCode).endWith "Failed to fetch the image."
            fetched := [d], compressInvoked := false, compressQuality := none } ∧
      RequestJs.fetchImageAndHandle envR reqR res =
        Except.ok
          { res := (res.status statusCode).endWith "Failed to fetch the image."
            fetched := [u], compressInvoked := false, compressQuality := none } ∧
      ((res.status statusCode).endWith "Failed to fetch the image.").statusCode =
        statusCode ∧
      ((res.status statusCode).endWith "Failed to fetch the image.").headers = res.headers ∧
      ((res.status statusCode).endWith "Failed to fetch the image.").body =
        [Chunk.text "Failed to fetch the image."] := by
  have htru : JS.truthy (some u) = true := by simp [JS.truthy, hu]
  refine ⟨?_, ?_, ?_, rfl, rfl, ?_⟩
  · have key : ∀ (r : Proxy1Js.Req), r.params.url = Proxy1Js.replaceBmi u →
        IsFallback res (Proxy1Js.redirect r res) (Proxy1Js.replaceBmi u) ∧
        (Proxy1Js.redirect r res).headers.get "x-proxy-bypass" =
          res.headers.get "x-proxy-bypass" := by
      intro r hr
      have hf := proxy1_redirect_isFallback r res hres hbody
      rw [hr] at hf
      exact ⟨hf, hf.2.2.2.2.2.2.2.1 "x-proxy-bypass" (by decide)⟩
    have hurl : (Proxy1Js.withParams req1 u).params.url = Proxy1Js.replaceBmi u := rfl
    have hcond : (decide (statusCode ≥ 400) ||
        (decide (statusCode ≥ 300) && JS.truthy (headers.get "location"))) = true := by
      simp [hsc]
    unfold Proxy1Js.hhproxy
    simp only [hq1, htru, Bool.not_true, Bool.false_eq_true, if_false, Option.getD_some]
    by_cases hloop : Proxy1Js.isLoopback (Proxy1Js.withParams req1 u) = true
    · rw [if_pos hloop]
      exact ⟨_, rfl, (key _ hurl).1, rfl, (key _ hurl).2⟩
    · rw [if_neg hloop]
      simp only [hurl, hvalid, Bool.not_true, Bool.false_eq_true, if_false, hfetch1]
      refine ⟨_, rfl, ?_, ?_, ?_⟩
      · simp only [Proxy1Js.originCallback, hcond, if_true]
        exact (key _ hurl).1
      · simp only [Proxy1Js.originCallback, hcond, if_true]
      · simp only [Proxy1Js.originCallback, hcond, if_true]
        exact (key _ hurl).2
  · unfold ProxyJs.fetchImageAndHandle
    simp only [hqP, htru, Bool.not_true, Bool.false_eq_true, if_false, Option.getD_some, hdec,
      hfetchP, hsc, if_true]
    rfl
  · unfold RequestJs.fetchImageAndHandle
    simp only [hqR, htru, Bool.not_true, Bool.false_eq_true, if_false, Option.getD_some,
      hfetchR, hsc, if_true]
    rfl
  · simp [Res.endWith, Res.finish, Res.write, Res.status, hbody]

/-- C8 amended, at an origin that answers 404 for `http://example.com/a.jpg`:
`hhproxy` gives the fallback, the other two handlers pass the 404 on. -/
theorem origin_error_status_witness :
    (∃ run,
        Proxy1Js.hhproxy
            { validURL := fun _ => true
              request := fun _ => Proxy1Js.FetchResult.response 404 [] []
              sharp := Proxy1Js.SharpOutcome.silent }
            { query := { url := some "http://example.com/a.jpg" }
              params := { url := "", webp := false, quality := 0 } }
            Res.fresh = Except.ok run ∧
          IsFallback Res.fresh run.res (Proxy1Js.replaceBmi "http://example.com/a.jpg")) ∧
      ProxyJs.fetchImageAndHandle
          { decodeURIComponent := fun s => some s
            request := fun _ => ProxyJs.FetchResult.response 404 [] []
            sharp := ProxyJs.SharpOutcome.metadataRejected }
          { query := { url := some "http://example.com/a.jpg" }
            params := { url := "", webp := false, quality := 0 } }
          Res.fresh =
        Except.ok
          { res := (Res.fresh.status 404).endWith "Failed to fetch the image."
            fetched := ["http://example.com/a.jpg"], compressInvoked := false,
            compressQuality := none } :=
  have h := origin_error_status "http://example.com/a.jpg" (by decide) 404 [] [] (by decide)
    Res.fresh rfl rfl
    { validURL := fun _ => true
      request := fun _ => Proxy1Js.FetchResult.response 404 [] []
      sharp := Proxy1Js.SharpOutcome.silent }
    { query := { url := some "http://example.com/a.jpg" }
      params := { url := "", webp := false, quality := 0 } }
    rfl rfl rfl
    { decodeURIComponent := fun s => some s
      request := fun _ => ProxyJs.FetchResult.response 404 [] []
      sharp := ProxyJs.SharpOutcome.metadataRejected }
    { query := { url := some "http://example.com/a.jpg" }
      params := { url := "", webp := false, quality := 0 } }
    rfl "http://example.com/a.jpg" rfl rfl
    { get := fun _ => RequestJs.FetchResult.response 404 [] []
      sharp := RequestJs.SharpOutcome.metadataRejected }
    { query := { url := some "http://example.com/a.jpg" } }
    rfl rfl
  ⟨match h.1 with
    | ⟨run, hrun, hfb, _, _⟩ => ⟨run, hrun, hfb⟩,
   h.2.1⟩

/-- C9, refuted for proxy.js and proxy1.js: a request without `url` is answered
with the response's default status 200 and the text `bandwidth-hero-proxy`
(proxy.js) or `ban` (proxy1.js), not with 400. -/
theorem missing_url_answered_with_200 :
    (ProxyJs.fetchImageAndHandle
        { decodeURIComponent := fun s => some s
          request := fun _ => ProxyJs.FetchResult.threw
          sharp := ProxyJs.SharpOutcome.metadataRejected }
        { query := {}, params := { url := "", webp := false, quality := 0 } }
        Res.fresh).map
      (fun run => (run.res.statusCode, run.res.body, run.fetched)) =
      Except.ok (200, [Chunk.text "bandwidth-hero-proxy"], []) ∧
    (Proxy1Js.hhproxy
        { validURL := fun _ => true
          request := fun _ => Proxy1Js.FetchResult.threw
          sharp := Proxy1Js.SharpOutcome.silent }
        { query := {}, params := { url := "", webp := false, quality := 0 } }
        Res.fresh).map
      (fun run => (run.res.statusCode, run.res.body, run.fetched)) =
      Except.ok (200, [Chunk.text "ban"], []) := by
  constructor <;> decide

/-- C9, amended. In every handler a request whose `url` query parameter is
missing or empty is answered at once, and no outbound fetch is issued.
`fetchImageAndHandle` of request.js answers with status 400 and the text
`Image URL is required.`; `fetchImageAndHandle` of proxy.js and `hhproxy` of
proxy1.js leave the status as it is (200 on a new response) and answer with the
text `bandwidth-hero-proxy` and `ban`. -/
theorem missing_url_no_fetch (res : Res)
    (envR : RequestJs.Env) (reqR : RequestJs.Req)
    (hR : reqR.query.url = none ∨ reqR.query.url = some "")
    (envP : ProxyJs.Env) (reqP : ProxyJs.Req)
    (hP : reqP.query.url = none ∨ reqP.query.url = some "")
    (env1 : Proxy1Js.Env) (req1 : Proxy1Js.Req)
    (h1 : req1.query.url = none ∨ req1.query.url = some "") :
    RequestJs.fetchImageAndHandle envR reqR res =
        Except.ok
          { res := (res.status 400).endWith "Image URL is required."
            fetched := [], compressInvoked := false, compressQuality := none } ∧
      ((res.status 400).endWith "Image URL is required.").statusCode = 400 ∧
      ProxyJs.fetchImageAndHandle envP reqP res =
        Except.ok
          { res := res.endWith "bandwidth-hero-proxy"
            fetched := [], compressInvoked := false, compressQuality := none } ∧
      (res.endWith "bandwidth-hero-proxy").statusCode = res.statusCode ∧
      Proxy1Js.hhproxy env1 req1 res =
        Except.ok
          { res := res.endWith "ban"
            fetched := [], compressInvoked := false, compressQuality := none } ∧
      (res.endWith "ban").statusCode = res.statusCode := by
  refine ⟨?_, rfl, ?_, rfl, ?_, rfl⟩
  · rcases hR with h | h <;>
      simp [RequestJs.fetchImageAndHandle, h, JS.truthy, pure, Except.pure]
  · rcases hP with h | h <;>
      simp [ProxyJs.fetchImageAndHandle, h, JS.truthy, pure, Except.pure]
  · rcases h1 with h | h <;>
      simp [Proxy1Js.hhproxy, h, JS.truthy, pure, Except.pure]

/-- C9 amended, at requests without any query parameter. -/
theorem missing_url_no_fetch_witness :
    RequestJs.fetchImageAndHandle
        { get := fun _ => RequestJs.FetchResult.error
          sharp := RequestJs.SharpOutcome.metadataRejected }
        { query := {} } Res.fresh =
      Except.ok
        { res := (Res.fresh.status 400).endWith "Image URL is required."
          fetched := [], compressInvoked := false, compressQuality := none } :=
  (missing_url_no_fetch Res.fresh
    { get := fun _ => RequestJs.FetchResult.error
      sharp := RequestJs.SharpOutcome.metadataRejected }
    { query := {} } (Or.inl rfl)
    { decodeURIComponent := fun s => some s
      request := fun _ => ProxyJs.FetchResult.threw
      sharp := ProxyJs.SharpOutcome.metadataRejected }
    { query := {}, params := { url := "", webp := false, quality := 0 } } (Or.inl rfl)
    { validURL := fun _ => true
      request := fun _ => Proxy1Js.FetchResult.threw
      sharp := Proxy1Js.SharpOutcome.silent }
    { query := {}, params := { url := "", webp := false, quality := 0 } } (Or.inl rfl)).1

/-! ## The encoder quality -/

/-- Reading back: `parseInt` returns every decimal numeral from 1 to 100. -/
theorem parseInt_numeral :
    ∀ n : Nat, n ≤ 100 → 1 ≤ n → JS.parseInt (some (toString n)) = some (n : Int) := by
  decide

/-- The quality `handleRequest` of proxy.js hands to `compress` is
`req.params.quality`. -/
theorem proxy_handleRequest_quality (sharp : ProxyJs.SharpOutcome) (req : ProxyJs.Req)
    (res : Res) (origin : ProxyJs.Origin) (run : Run)
    (h : ProxyJs.handleRequest sharp req res origin = Except.ok run) :
    run.compressQuality = none ∨ run.compressQuality = some req.params.quality := by
  unfold ProxyJs.handleRequest at h
  cases hsc : ProxyJs.shouldCompress req with
  | error e => simp [hsc, bind, Except.bind] at h
  | ok b =>
    cases b with
    | true =>
      simp only [hsc, bind, Except.bind, if_true, pure, Except.pure, Except.ok.injEq] at h
      right
      rw [← h]
    | false =>
      simp only [hsc, bind, Except.bind, Bool.false_eq_true, if_false, pure, Except.pure,
        Except.ok.injEq] at h
      left
      rw [← h]

/-- The quality a run of `fetchImageAndHandle` of proxy.js hands to `compress`
is the one computed from the query. -/
theorem proxy_fetch_quality (env : ProxyJs.Env) (req : ProxyJs.Req) (res : Res) (run : Run)
    (h : ProxyJs.fetchImageAndHandle env req res = Except.ok run) :
    run.compressQuality = none ∨ run.compressQuality = some (ProxyJs.quality req.query) := by
  unfold ProxyJs.fetchImageAndHandle at h
  split at h
  · simp only [pure, Except.pure, Except.ok.injEq] at h
    left
    rw [← h]
  · split at h
    · cases h
    · dsimp only at h
      split at h
      · simp only [pure, Except.pure, Except.ok.injEq] at h
        left
        rw [← h]
      · split at h
        · simp only [pure, Except.pure, Except.ok.injEq] at h
          left
          rw [← h]
        · split at h
          · rename_i run0 hrun0
            simp only [pure, Except.pure, Except.ok.injEq] at h
            have := proxy_handleRequest_quality _ _ _ _ _ hrun0
            rw [← h]
            exact this
          · simp only [pure, Except.pure, Except.ok.injEq] at h
            left
            rw [← h]

/-- The quality a run of `fetchImageAndHandle` of request.js hands to
`compressStream` is the one computed from the query. -/
theorem request_fetch_quality (env : RequestJs.Env) (req : RequestJs.Req) (res : Res)
    (run : Run) (h : RequestJs.fetchImageAndHandle env req res = Except.ok run) :
    run.compressQuality = none ∨ run.compressQuality = some (RequestJs.quality req.query) := by
  unfold RequestJs.fetchImageAndHandle at h
  simp only at h
  split at h
  · simp only [pure, Except.pure, Except.ok.injEq] at h
    left
    rw [← h]
  · split at h
    · cases h
    · simp only [pure, Except.pure, Except.ok.injEq] at h
      left
      rw [← h]
    · split at h
      · simp only [pure, Except.pure, Except.ok.injEq] at h
        left
        rw [← h]
      · rename_i sc hs body _ _
        cases hsc : RequestJs.shouldCompress (hs.get "content-type")
            (JS.numOr (JS.parseInt (hs.get "content-length")) 0)
            (!JS.truthy req.query.jpeg) with
        | error e => simp [hsc, bind, Except.bind] at h
        | ok b =>
          cases b with
          | true =>
            simp only [hsc, bind, Except.bind, if_true, pure, Except.pure,
              Except.ok.injEq] at h
            right
            rw [← h]
          | false =>
            simp only [hsc, bind, Except.bind, Bool.false_eq_true, if_false, pure,
              Except.pure, Except.ok.injEq] at h
            left
            rw [← h]

/-- C10, refuted: with `l=150` (proxy.js) or `quality=150` (request.js) on a
200000-byte `image/jpeg` origin, the quality handed over for the encoder is
150, outside 1..100. -/
theorem quality_150_not_clamped :
    (ProxyJs.fetchImageAndHandle
        { decodeURIComponent := fun s => some s
          request := fun _ =>
            ProxyJs.FetchResult.response 200
              [("content-type", "image/jpeg"), ("content-length", "200000")]
              [Chunk.bytes [255, 216]]
          sharp := ProxyJs.SharpOutcome.toFileCallback false (some 1000)
            (some [Chunk.bytes [82, 73]]) }
        { query := { url := some "http://example.com/a.jpg", l := some "150" }
          params := { url := "", webp := false, quality := 0 } }
        Res.fresh).map (fun run => run.compressQuality) = Except.ok (some 150) ∧
    (RequestJs.fetchImageAndHandle
        { get := fun _ =>
            RequestJs.FetchResult.response 200
              [("content-type", "image/jpeg"), ("content-length", "200000")]
              [Chunk.bytes [255, 216]]
          sharp := RequestJs.SharpOutcome.encoded [Chunk.bytes [82, 73]] }
        { query := { url := some "http://example.com/a.jpg", quality := some "150" } }
        Res.fresh).map (fun run => run.compressQuality) = Except.ok (some 150) ∧
    ¬ ((1 : Int) ≤ 150 ∧ (150 : Int) ≤ 100) := by
  refine ⟨?_, ?_, ?_⟩ <;> decide

/-- C10, amended. The quality the handler computes from the query parameter
(`l` in proxy.js, `quality` in request.js) and hands over for the encoder is
the integer `parseInt(…, 10)` reads when that is a number other than 0, without
clamping to 1..100, and the default 80 when the parameter is absent, is not a
number or reads as 0. For every decimal numeral `n` from 1 to 100 it is `n`. -/
theorem quality_parsed_or_default (query : Query) (n : Nat) (hn1 : 1 ≤ n) (hn2 : n ≤ 100)
    (res : Res)
    (envP : ProxyJs.Env) (reqP : ProxyJs.Req) (runP : Run)
    (hrunP : ProxyJs.fetchImageAndHandle envP reqP res = Except.ok runP)
    (envR : RequestJs.Env) (reqR : RequestJs.Req) (runR : Run)
    (hrunR : RequestJs.fetchImageAndHandle envR reqR res = Except.ok runR) :
    (ProxyJs.quality { query with l := some (toString n) } = n ∧
        RequestJs.quality { query with quality := some (toString n) } = n) ∧
      (ProxyJs.quality { query with l := none } = 80 ∧
        RequestJs.quality { query with quality := none } = 80) ∧
      (∀ k : Int, JS.parseInt query.l = some k → k ≠ 0 → ProxyJs.quality query = k) ∧
      (∀ k : Int, JS.parseInt query.quality = some k → k ≠ 0 →
        RequestJs.quality query = k) ∧
      ((JS.parseInt query.l = none ∨ JS.parseInt query.l = some 0) →
        ProxyJs.quality query = 80) ∧
      ((JS.parseInt query.quality = none ∨ JS.parseInt query.quality = some 0) →
        RequestJs.quality query = 80) ∧
      (runP.compressQuality = none ∨
        runP.compressQuality = some (ProxyJs.quality reqP.query)) ∧
      (runR.compressQuality = none ∨
        runR.compressQuality = some (RequestJs.quality reqR.query)) := by
  have hpos : (n : Int) ≠ 0 := by omega
  refine ⟨⟨?_, ?_⟩, ⟨rfl, rfl⟩, ?_, ?_, ?_, ?_, proxy_fetch_quality envP reqP res runP hrunP,
    request_fetch_quality envR reqR res runR hrunR⟩
  · simp [ProxyJs.quality, parseInt_numeral n hn2 hn1, JS.numOr, hpos]
  · simp [RequestJs.quality, parseInt_numeral n hn2 hn1, JS.numOr, hpos]
  · intro k hk hk0
    simp [ProxyJs.quality, hk, JS.numOr, hk0]
  · intro k hk hk0
    simp [RequestJs.quality, hk, JS.numOr, hk0]
  · intro h
    rcases h with h | h <;> simp [ProxyJs.quality, h, JS.numOr, ProxyJs.DEFAULT_QUALITY]
  · intro h
    rcases h with h | h <;> simp [RequestJs.quality, h, JS.numOr, RequestJs.DEFAULT_QUALITY]

/-- C10 amended, at the numeral 55 and at runs that answer a request without
`url`. -/
theorem quality_parsed_or_default_witness :
    ProxyJs.quality { l := some (toString 55) } = 55 ∧
      RequestJs.quality { quality := some (toString 55) } = 55 :=
  (quality_parsed_or_default {} 55 (by decide) (by decide) Res.fresh
    { decodeURIComponent := fun s => some s
      request := fun _ => ProxyJs.FetchResult.threw
      sharp := ProxyJs.SharpOutcome.metadataRejected }
    { query := {}, params := { url := "", webp := false, quality := 0 } }
    { res := Res.fresh.endWith "bandwidth-hero-proxy" } rfl
    { get := fun _ => RequestJs.FetchResult.error
      sharp := RequestJs.SharpOutcome.metadataRejected }
    { query := {} }
    { res := (Res.fresh.status 400).endWith "Image URL is required." } rfl).1
